import Mathlib

/-!
Shallow embedding of the mdigger/apns provider library (Go) and proofs about
its documented behaviour.  Pure fragments of the Go source are translated as
Lean functions; machine integers are modelled as `Nat`/`Int` with explicit
`% 2 ^ 32` where 32-bit overflow matters; fallible Go functions return
`Except`.  Effectful inputs (the current time, the JSON encoder, a freshly
generated token, an ECDSA signature pair) are passed as explicit parameters.
-/

namespace Apns

/-- Decidable equality for `Except`, used to evaluate the embedded fallible
functions on concrete inputs. -/
instance {ε α : Type} [DecidableEq ε] [DecidableEq α] : DecidableEq (Except ε α) := fun x y =>
  match x, y with
  | .error e, .error f =>
    if h : e = f then isTrue (by rw [h]) else isFalse (fun hc => by cases hc; exact h rfl)
  | .error _, .ok _ => isFalse (fun hc => Except.noConfusion hc)
  | .ok a, .ok b =>
    if h : a = b then isTrue (by rw [h]) else isFalse (fun hc => by cases hc; exact h rfl)
  | .ok _, .error _ => isFalse (fun hc => Except.noConfusion hc)

/-! ## Shared data model: `sendMessage` (message.go) -/

/-- Embeds the Go struct `sendMessage` (message.go): id (uint32), device
token bytes, JSON payload bytes, expiration (uint32 unix seconds, 0 = none),
priority (uint8), creation instant (unix seconds). -/
structure sendMessage where
  id : Nat
  token : List Nat
  payload : List Nat
  expiration : Nat
  priority : Nat
  created : Int
deriving DecidableEq

/-- Embeds `sendMessage.IsExpired` (message.go): returns `false` when the
expiration field is zero, otherwise compares `time.Now().Unix()` (the `now`
parameter) with `int64(smsg.expiration)` exactly as the source does, with
`now ≤ expiration`. -/
def sendMessage.IsExpired (smsg : sendMessage) (now : Int) : Bool :=
  if smsg.expiration = 0 then false
  else decide (now ≤ (smsg.expiration : Int))

/-- Embeds the guard at the head of `Conn.waitLoop` (conn.go): a message
pulled from the send channel is dropped (not transmitted) exactly when
`msg.IsExpired()` reports `true`. -/
def waitLoopTransmits (msg : sendMessage) (now : Int) : Bool :=
  !(sendMessage.IsExpired msg now)

/-! ## Message conversion (message.go) and the binary send path (conn.go) -/

/-- Errors raised by `Message.toSendMessage` (message.go). -/
inductive sendError where
  | payloadEmpty
  | payloadTooLarge
deriving DecidableEq

/-- Embeds `maxPayloadSize` (message.go). -/
def maxPayloadSize : Nat := 2048

/-- Embeds the Go struct `Message` (message.go): the payload dictionary is a
`map[string]interface{}` modelled as an optional association list (`none`
plays the role of the nil map); values are left opaque as strings since the
code never inspects them.  `Expiration` is a duration in seconds, `Priority`
a uint8. -/
structure Message where
  Payload : Option (List (String × String))
  Expiration : Int
  Priority : Nat

/-- Embeds `Message.toSendMessage` (message.go).  `jsonMarshal` stands for
`json.Marshal`, which is opaque to this code: the function only measures the
length of its result and stores it verbatim.  `now` stands for
`time.Now().Unix()`; the uint32 conversion of the expiration stamp is the
explicit `% 2 ^ 32`. -/
def toSendMessage (jsonMarshal : List (String × String) → List Nat)
    (msg : Message) (now : Int) : Except sendError sendMessage :=
  match msg.Payload with
  | none => .error .payloadEmpty
  | some p =>
    if p.length = 0 then .error .payloadEmpty
    else
      let payload := jsonMarshal p
      if payload.length > maxPayloadSize then .error .payloadTooLarge
      else .ok
        { id := 0
          token := []
          payload := payload
          expiration := if msg.Expiration > 0 then (now + msg.Expiration).toNat % 2 ^ 32 else 0
          priority := if msg.Priority = 5 ∨ msg.Priority = 10 then msg.Priority else 0
          created := 0 }

/-- Embeds `sendMessage.WithToken` (message.go): a copy with the given token,
a reset id, and `created` stamped with the current time. -/
def sendMessage.WithToken (smsg : sendMessage) (token : List Nat) (now : Int) : sendMessage :=
  { id := 0
    token := token
    payload := smsg.payload
    expiration := smsg.expiration
    priority := smsg.priority
    created := now }

/-- Embeds the token loop of `Conn.Send` (conn.go): tokens whose length is
not 32 are skipped with `continue`; each remaining token sends
`sendmsg.WithToken(token)` to the channel.  The result lists the enqueued
messages in order. -/
def enqueueTokens (sendmsg : sendMessage) (now : Int) : List (List Nat) → List sendMessage
  | [] => []
  | token :: rest =>
    if token.length ≠ 32 then enqueueTokens sendmsg now rest
    else sendMessage.WithToken sendmsg token now :: enqueueTokens sendmsg now rest

/-- Embeds `Conn.Send` (conn.go): convert the message, return conversion
errors synchronously, otherwise enqueue one copy per well-formed token. -/
def Send (jsonMarshal : List (String × String) → List Nat) (msg : Message) (now : Int)
    (tokens : List (List Nat)) : Except sendError (List sendMessage) :=
  match toSendMessage jsonMarshal msg now with
  | .error e => .error e
  | .ok sendmsg => .ok (enqueueTokens sendmsg now tokens)

/-! ## Id assignment (frameBuffer.go / conn.go waitLoop) -/

/-- Embeds the id-assignment step shared by `frameBuffer.Add`
(frameBuffer.go) and `Conn.waitLoop` (conn.go): `if msg.id == 0 {
counter++; msg.id = counter }` with `counter` a Go uint32, so the increment
is taken `% 2 ^ 32`.  Returns the updated counter and message. -/
def assignId (counter : Nat) (msg : sendMessage) : Nat × sendMessage :=
  if msg.id = 0 then
    ((counter + 1) % 2 ^ 32, { msg with id := (counter + 1) % 2 ^ 32 })
  else (counter, msg)

/-- Iterates `assignId` over a batch of messages, as the `for _, msg :=
range msgs` loop of `frameBuffer.Add` does. -/
def assignIds (counter : Nat) : List sendMessage → Nat × List sendMessage
  | [] => (counter, [])
  | m :: rest =>
    let step := assignId counter m
    let tail := assignIds step.1 rest
    (tail.1, step.2 :: tail.2)

/-! ## Replay cache (messageCache.go) and the resend trigger (conn.go) -/

/-- Embeds `messageCache.FromId` (messageCache.go): scan for the first entry
whose id equals the argument; return the suffix from that entry (from the
next entry if `exclude`); return nil when no entry matches. -/
def FromId : List sendMessage → Nat → Bool → List sendMessage
  | [], _, _ => []
  | msg :: rest, id, exclude =>
    if msg.id = id then (if exclude then rest else msg :: rest)
    else FromId rest id exclude

/-- Embeds the index scan of `Conn.handleError` (conn.go): `var index int;
for i, msg := range cache { if msg.id == err.Id { index = i; break } }` —
the accumulator `i` starts at 0 and the result stays 0 when no entry
matches. -/
def handleErrorIndexLoop : List sendMessage → Nat → Nat → Nat
  | [], _, _ => 0
  | msg :: rest, errId, i =>
    if msg.id = errId then i else handleErrorIndexLoop rest errId (i + 1)

/-- Embeds the resend selection of `Conn.handleError` (conn.go): the suffix
`cache[index:]`, with `index` incremented first when `err.Status > 0`. -/
def handleErrorResend (cache : List sendMessage) (errId : Nat) (statusPositive : Bool) :
    List sendMessage :=
  cache.drop (handleErrorIndexLoop cache errId 0 + (if statusPositive then 1 else 0))

/-- Embeds the cache truncation of `Conn.handleError` (conn.go):
`connection.cache = make([]*sendMessage, 0)` after scheduling the resend. -/
def handleErrorCacheAfter : List sendMessage := []

/-! ## Provider token JWT cache (feedback.go) -/

/-- Embeds the cached-token fields of `ProviderToken` (feedback.go): the
cached JWT string (empty = no cache) and its issue instant. -/
structure ProviderTokenCache where
  jwt : String
  created : Int
deriving DecidableEq

/-- Embeds `ProviderToken.JWT` (feedback.go): regenerate when the cache is
empty or `time.Since(created) > JWTLifeTime`, otherwise return the cached
string.  `freshTok` stands for the token `createJWT` would mint at `now`
(its body is modelled separately as `createJWTSignature`); `createJWT`
stores the fresh token together with its creation instant. -/
def JWT (st : ProviderTokenCache) (lifeTime now : Int) (freshTok : String) :
    String × ProviderTokenCache :=
  if st.jwt = "" ∨ now - st.created > lifeTime then
    (freshTok, { jwt := freshTok, created := now })
  else (st.jwt, st)

/-! ## JWT signature serialisation (feedback.go createJWT) -/

/-- Big-endian minimal byte representation of a natural number, as Go's
`big.Int.Bytes` produces for a non-negative value (empty for 0).  The first
argument is recursion fuel; `n` itself always suffices. -/
def natToBytesBEAux : Nat → Nat → List Nat
  | 0, _ => []
  | fuel + 1, n => if n = 0 then [] else natToBytesBEAux fuel (n / 256) ++ [n % 256]

/-- Embeds `big.Int.Bytes` for non-negative values. -/
def natToBytesBE (n : Nat) : List Nat := natToBytesBEAux n n

/-- Embeds Go's `copy(dst, src)` for byte slices: `min (len dst) (len src)`
bytes of `src` overwrite the head of `dst`; the tail of `dst` is kept. -/
def goCopy (dst src : List Nat) : List Nat :=
  src.take dst.length ++ dst.drop (min src.length dst.length)

/-- Base64url alphabet used by Go's `base64.RawURLEncoding`. -/
def b64urlAlphabet : List Char :=
  "ABCDEFGHIJKLMNOPQRSTUVWXYZabcdefghijklmnopqrstuvwxyz0123456789-_".toList

/-- One alphabet character of base64url. -/
def b64urlChar (n : Nat) : Char := b64urlAlphabet.getD n '?'

/-- Embeds `base64.RawURLEncoding.Encode`: 3-byte groups become 4
characters; a trailing group of 1 or 2 bytes becomes 2 or 3 characters; no
padding. -/
def b64urlEncode : List Nat → List Char
  | [] => []
  | [b1] => [b64urlChar (b1 / 4), b64urlChar (b1 % 4 * 16)]
  | [b1, b2] =>
    [b64urlChar (b1 / 4), b64urlChar (b1 % 4 * 16 + b2 / 16), b64urlChar (b2 % 16 * 4)]
  | b1 :: b2 :: b3 :: rest =>
    b64urlChar (b1 / 4) :: b64urlChar (b1 % 4 * 16 + b2 / 16) ::
      b64urlChar (b2 % 16 * 4 + b3 / 64) :: b64urlChar (b3 % 64) :: b64urlEncode rest

/-- Embeds the signature region of `ProviderToken.createJWT` (feedback.go)
just before base64 encoding: `buf[120:186]` starts as 66 `'*'` bytes
(0x2a = 42); `copy(buf[120:152], r.Bytes())` writes the minimal big-endian
bytes of `r` into the 32-byte window and `copy(buf[152:186], s.Bytes())`
writes those of `s` into the remaining 34-byte window. -/
def signatureBytes (r s : Nat) : List Nat :=
  goCopy (List.replicate 32 42) (natToBytesBE r) ++ goCopy (List.replicate 34 42) (natToBytesBE s)

/-- The signature part of the JWT produced by `createJWT`:
`base64.RawURLEncoding.Encode(buf[98:186], buf[120:186])`. -/
def createJWTSignature (r s : Nat) : List Char := b64urlEncode (signatureBytes r s)

/-- Modelled from the spec (not from the source): the serialisation the spec
prescribes for the signature — `r` and `s` each as exactly 32 zero-padded
big-endian bytes. -/
def zeroPad32 (n : Nat) : List Nat :=
  List.replicate (32 - (natToBytesBE n).length) 0 ++ natToBytesBE n

/-- Modelled from the spec (not from the source): the 64-byte big-endian
concatenation `r ‖ s`, each zero-padded to 32 bytes. -/
def specSignatureBytes (r s : Nat) : List Nat := zeroPad32 r ++ zeroPad32 s

/-- Modelled from the spec (not from the source): base64url of the 64-byte
zero-padded signature. -/
def specSignatureB64 (r s : Nat) : List Char := b64urlEncode (specSignatureBytes r s)

/-! ## Certificate info (certificate source, src/unnamed/part_000) -/

/-- Embeds the Go struct `CertificateInfo`. -/
structure CertificateInfo where
  CName : String
  OrgName : String
  OrgUnit : String
  Country : String
  BundleID : String
  Topics : List String
  Development : Bool
  Production : Bool
  IsApple : Bool
  Expire : Int

/-- Embeds the membership loop of `CertificateInfo.Support`: `for _, name :=
range i.Topics { if name == topic { return true } }; return false`. -/
def supportLoop : List String → String → Bool
  | [], _ => false
  | name :: rest, topic => if name = topic then true else supportLoop rest topic

/-- Embeds `CertificateInfo.Support`: when `Topics` is empty the topic must
equal `BundleID`; otherwise membership in `Topics` decides. -/
def CertificateInfo.Support (i : CertificateInfo) (topic : String) : Bool :=
  if i.Topics.length = 0 then decide (topic = i.BundleID)
  else supportLoop i.Topics topic

/-! ## Provider token serialisation (feedback.go) -/

/-- Errors of the `ProviderToken` constructors (feedback.go). -/
inductive ptError where
  | bad
  | badKeyID
  | badTeamID
  | badPrivateKey
deriving DecidableEq

/-- Embeds the persistent fields of `ProviderToken` (feedback.go): the two
10-character ids and the private key, carried as its marshalled DER bytes
(the x509 encode/decode pair is opaque to this code and modelled as the
identity on those bytes). -/
structure ProviderToken where
  teamID : String
  keyID : String
  privateKey : List Nat
deriving DecidableEq

/-- Embeds `NewProviderToken` (feedback.go): both ids must be exactly 10
characters; the private key starts unset. -/
def NewProviderToken (teamID keyID : String) : Except ptError ProviderToken :=
  if teamID.length ≠ 10 then .error .badTeamID
  else if keyID.length ≠ 10 then .error .badKeyID
  else .ok { teamID := teamID, keyID := keyID, privateKey := [] }

/-- Embeds `ProviderToken.SetPrivateKey` (feedback.go) with
`x509.ParseECPrivateKey` abstracted as accepting the marshalled bytes: the
key bytes are stored and the JWT cache reset. -/
def SetPrivateKey (pt : ProviderToken) (key : List Nat) : Except ptError ProviderToken :=
  .ok { pt with privateKey := key }

/-- Embeds the Go struct `jsonProviderToken` (feedback.go), the JSON image
of a provider token. -/
structure jsonProviderToken where
  TeamID : String
  KeyID : String
  PrivateKey : List Nat
deriving DecidableEq

/-- Embeds `ProviderToken.MarshalJSON` (feedback.go): emit the team id, the
key id and the marshalled private key. -/
def MarshalJSON (pt : ProviderToken) : jsonProviderToken :=
  { TeamID := pt.teamID, KeyID := pt.keyID, PrivateKey := pt.privateKey }

/-- Embeds `ProviderToken.UnmarshalJSON` (feedback.go): the source calls
`NewProviderToken(jsonPT.KeyID, jsonPT.TeamID)` — the key id is passed in
the team-id position and vice versa — then sets the private key. -/
def UnmarshalJSON (j : jsonProviderToken) : Except ptError ProviderToken :=
  match NewProviderToken j.KeyID j.TeamID with
  | .error e => .error e
  | .ok npt => SetPrivateKey npt j.PrivateKey

/-- A PEM block as `encoding/pem` models it: type, headers, body bytes. -/
structure pemBlock where
  type : String
  headers : List (String × String)
  bytes : List Nat
deriving DecidableEq

/-- Go map lookup `headers[k]` with the zero value `""` for a missing key. -/
def headerGet (hs : List (String × String)) (k : String) : String :=
  match hs.lookup k with
  | some v => v
  | none => ""

/-- Embeds `ProviderToken.WritePEM` (feedback.go): block type `APNS TOKEN`,
headers `teamID` and `keyID`, body the marshalled private key. -/
def WritePEM (pt : ProviderToken) : pemBlock :=
  { type := "APNS TOKEN"
    headers := [("teamID", pt.teamID), ("keyID", pt.keyID)]
    bytes := pt.privateKey }

/-- Embeds `ProviderTokenFromPEM` (feedback.go): reject a wrong block type,
then call `NewProviderToken(block.Headers["keyID"], block.Headers["teamID"])`
— again with the two headers transposed into the constructor — and set the
private key. -/
def ProviderTokenFromPEM (b : pemBlock) : Except ptError ProviderToken :=
  if b.type ≠ "APNS TOKEN" then .error .bad
  else match NewProviderToken (headerGet b.headers "keyID") (headerGet b.headers "teamID") with
  | .error e => .error e
  | .ok pt => SetPrivateKey pt b.bytes

/-! ## HTTP/2 request headers (notification.go) -/

/-- Embeds the Go struct `Notification` (notification.go).  A `time.Time`
zero value is distinct from unix second 0, so the expiration carries an
explicit zero flag next to its unix-seconds value. -/
structure Notification where
  Token : String
  ID : String
  ExpirationIsZero : Bool
  ExpirationUnix : Int
  LowPriority : Bool
  Topic : String
  CollapseID : String

/-- Embeds the header-setting block of `Notification.request`
(notification.go), in source order; `now` stands for `time.Now()` and the
comparison `Expiration.Before(now)` is strict. -/
def requestHeaders (n : Notification) (now : Int) : List (String × String) :=
  [("Content-Type", "application/json")]
    ++ (if n.ID ≠ "" then [("apns-id", n.ID)] else [])
    ++ (if n.ExpirationIsZero then []
        else [("apns-expiration",
                if n.ExpirationUnix < now then "0" else toString n.ExpirationUnix)])
    ++ (if n.LowPriority then [("apns-priority", "5")] else [])
    ++ (if n.Topic ≠ "" then [("apns-topic", n.Topic)] else [])
    ++ (if n.CollapseID ≠ "" ∧ n.CollapseID.length ≤ 64 then
          [("apns-collapse-id", n.CollapseID)] else [])

/-- The value of the `apns-expiration` header in the built request, if the
header is present. -/
def apnsExpiration (n : Notification) (now : Int) : Option String :=
  (requestHeaders n now).lookup "apns-expiration"

/-! ## Theorems -/

/-- C1: the claim says the signature part of the JWT is the base64url
encoding of `r` and `s` each zero-padded to exactly 32 big-endian bytes.
The code instead left-aligns the minimal bytes of `r` in a 32-byte window
and the minimal bytes of `s` in a 34-byte window, both pre-filled with the
`'*'` placeholder byte 0x2a, and base64url-encodes those 66 bytes.  At the
valid signature pair r = s = 1 the region is `1` followed by 31 `'*'`
bytes, then `1` followed by 33 `'*'` bytes, and the encoded signature part
differs from the one the claim prescribes. -/
theorem createJWT_signature_not_zero_padded :
    signatureBytes 1 1 = (1 :: List.replicate 31 42) ++ (1 :: List.replicate 33 42) ∧
    specSignatureBytes 1 1 = (List.replicate 31 0 ++ [1]) ++ (List.replicate 31 0 ++ [1]) ∧
    createJWTSignature 1 1 ≠ specSignatureB64 1 1 := by
  refine ⟨by decide, by decide, by decide⟩

/-- C3: the claim says `IsExpired()` is true iff the expiration is non-zero
and in the past, and that the send loop skips exactly those messages.  The
code compares in the wrong direction (`now ≤ expiration`): a message whose
non-zero expiration 5 already passed at now = 10 is reported unexpired and
is transmitted by the wait loop, while a message whose expiration 10 is
still in the future at now = 5 is reported expired and is skipped. -/
theorem isExpired_comparison_flipped :
    sendMessage.IsExpired
        { id := 0, token := [], payload := [], expiration := 5, priority := 0, created := 0 }
        10 = false ∧
    waitLoopTransmits
        { id := 0, token := [], payload := [], expiration := 5, priority := 0, created := 0 }
        10 = true ∧
    sendMessage.IsExpired
        { id := 0, token := [], payload := [], expiration := 10, priority := 0, created := 0 }
        5 = true ∧
    waitLoopTransmits
        { id := 0, token := [], payload := [], expiration := 10, priority := 0, created := 0 }
        5 = false := by
  decide

/-- C6 counterexample: the claim says the id counter wraps to 1 after
2^32 − 1 and that id 0 is never assigned.  With the counter at 2^32 − 1,
the Go uint32 increment wraps to 0 and the message is assigned id 0, not
1. -/
theorem assignId_wraps_to_zero :
    (assignId (2 ^ 32 - 1)
        { id := 0, token := [], payload := [], expiration := 0, priority := 0, created := 0 }).2.id
      = 0 ∧
    (assignId (2 ^ 32 - 1)
        { id := 0, token := [], payload := [], expiration := 0, priority := 0, created := 0 }).2.id
      ≠ 1 := by
  decide

/-- Fresh ids produced by a run of `assignIds` over all-unassigned messages
form the contiguous range starting one past the initial counter, as long as
no wrap occurs. -/
theorem assignIds_fresh (msgs : List sendMessage) : ∀ c₀ : Nat,
    (∀ m ∈ msgs, m.id = 0) → c₀ + msgs.length < 2 ^ 32 →
    (assignIds c₀ msgs).2.map sendMessage.id = List.range' (c₀ + 1) msgs.length ∧
    (assignIds c₀ msgs).1 = c₀ + msgs.length := by
  induction msgs with
  | nil => intro c₀ _ _; simp [assignIds]
  | cons m rest ih =>
    intro c₀ hall hlt
    have hm : m.id = 0 := hall m (List.mem_cons_self ..)
    have hc : c₀ + 1 < 2 ^ 32 := by simp at hlt; omega
    have hmod : (c₀ + 1) % 2 ^ 32 = c₀ + 1 := Nat.mod_eq_of_lt hc
    have hrest := ih (c₀ + 1) (fun x hx => hall x (List.mem_cons_of_mem _ hx))
      (by simp at hlt ⊢; omega)
    have hstep : assignId c₀ m = (c₀ + 1, { m with id := c₀ + 1 }) := by
      simp [assignId, hm, hmod]; omega
    simp only [assignIds, hstep, List.map_cons, List.length_cons, List.range'_succ]
    refine ⟨?_, ?_⟩
    · simp [hrest.1]
    · rw [hrest.2]; omega

/-- C6 (amended): an id is assigned only to a message whose id is 0; a
fresh assignment sets the id to the incremented counter reduced mod 2^32,
so below the wrap point the assigned ids are the successive counter values
1, 2, 3, … and are never 0, while at counter 2^32 − 1 the counter wraps to
0 (not 1) and id 0 is handed out. -/
theorem assignId_counter_spec (counter : Nat) (msg : sendMessage) :
    (msg.id ≠ 0 → assignId counter msg = (counter, msg)) ∧
    (msg.id = 0 → assignId counter msg =
      ((counter + 1) % 2 ^ 32, { msg with id := (counter + 1) % 2 ^ 32 })) ∧
    (msg.id = 0 → counter + 1 < 2 ^ 32 →
      (assignId counter msg).2.id = counter + 1 ∧ (assignId counter msg).2.id ≠ 0) ∧
    (∀ msgs : List sendMessage, ∀ c₀ : Nat,
      (∀ m ∈ msgs, m.id = 0) → c₀ + msgs.length < 2 ^ 32 →
      (assignIds c₀ msgs).2.map sendMessage.id = List.range' (c₀ + 1) msgs.length) := by
  refine ⟨fun h => by simp [assignId, h], fun h => by simp [assignId, h],
    fun h hlt => ?_, fun msgs c₀ hall hlt => (assignIds_fresh msgs c₀ hall hlt).1⟩
  have hmod : (counter + 1) % 2 ^ 32 = counter + 1 := Nat.mod_eq_of_lt hlt
  constructor
  · simp [assignId, h, hmod]; omega
  · simp only [assignId, h, if_pos]
    intro hcontra
    rw [hmod] at hcontra
    omega

/-- C6 witness: the amended statement instantiated at concrete inputs — a
message with id 7 is untouched at counter 5, a message with id 0 receives
id 6, and a run over two unassigned messages from counter 0 yields ids
1 and 2. -/
theorem assignId_counter_spec_witness :
    assignId 5 { id := 7, token := [], payload := [], expiration := 0, priority := 0, created := 0 }
      = (5, { id := 7, token := [], payload := [], expiration := 0, priority := 0, created := 0 }) ∧
    (assignId 5 { id := 0, token := [], payload := [], expiration := 0, priority := 0, created := 0 }).2.id = 6 ∧
    (assignIds 0
      [{ id := 0, token := [], payload := [], expiration := 0, priority := 0, created := 0 },
       { id := 0, token := [], payload := [], expiration := 0, priority := 0, created := 0 }]).2.map
        sendMessage.id = [1, 2] :=
  ⟨(assignId_counter_spec 5
      { id := 7, token := [], payload := [], expiration := 0, priority := 0, created := 0 }).1
      (by decide),
   ((assignId_counter_spec 5
      { id := 0, token := [], payload := [], expiration := 0, priority := 0, created := 0 }).2.2.1
      rfl (by decide)).1,
   ((assignId_counter_spec 0
      { id := 0, token := [], payload := [], expiration := 0, priority := 0, created := 0 }).2.2.2
      [{ id := 0, token := [], payload := [], expiration := 0, priority := 0, created := 0 },
       { id := 0, token := [], payload := [], expiration := 0, priority := 0, created := 0 }]
      0 (by decide) (by decide)).trans (by decide)⟩

/-- The membership loop of `Support` decides list membership. -/
theorem supportLoop_eq_mem (l : List String) (t : String) :
    supportLoop l t = true ↔ t ∈ l := by
  induction l with
  | nil => simp [supportLoop]
  | cons name rest ih =>
    by_cases h : name = t
    · simp [supportLoop, h]
    · simp [supportLoop, h, ih, Ne.symm h]

/-- C9: `Support(topic)` is true iff either the `Topics` list is empty and
the topic equals `BundleID`, or `Topics` contains the topic; in particular
with empty `Topics` support is exactly equality with `BundleID`, and with
non-empty `Topics` a topic absent from the list is unsupported. -/
theorem support_topics (i : CertificateInfo) (t : String) :
    (CertificateInfo.Support i t = true ↔ (i.Topics = [] ∧ t = i.BundleID) ∨ t ∈ i.Topics) ∧
    (i.Topics = [] → (CertificateInfo.Support i t = true ↔ t = i.BundleID)) ∧
    (i.Topics ≠ [] → t ∉ i.Topics → CertificateInfo.Support i t = false) := by
  by_cases h : i.Topics = []
  · refine ⟨?_, fun _ => ?_, fun hne => absurd h hne⟩ <;>
      simp [CertificateInfo.Support, h, List.length_eq_zero]
  · have hlen : i.Topics.length ≠ 0 := by simpa [List.length_eq_zero] using h
    refine ⟨?_, fun he => absurd he h, fun _ hnm => ?_⟩
    · simp [CertificateInfo.Support, hlen, supportLoop_eq_mem, h]
    · have hmem : supportLoop i.Topics t = false := by
        cases hb : supportLoop i.Topics t
        · rfl
        · exact absurd ((supportLoop_eq_mem _ _).mp hb) hnm
      simp [CertificateInfo.Support, hlen, hmem]

/-- C9 witness: the non-membership clause instantiated on a certificate
with a non-empty topic list. -/
theorem support_topics_witness :
    CertificateInfo.Support
      ⟨"", "", "", "", "com.example.app", ["com.example.app", "com.example.app.voip"],
        false, false, false, 0⟩ "not.in.topics" = false :=
  (support_topics _ _).2.2 (by decide) (by decide)

/-- C2 counterexample: the claim quantifies over every id k, but when no
cache entry carries id k the code selects nothing (`FromId` returns nil)
even though entries with id ≥ k exist: with cache ids [1, 3] and k = 2 the
claim demands the entry with id 3, the code returns the empty list.  The
`handleError` variant scans to index 0 when k is absent and so resends the
entry with id 1 as well. -/
theorem fromId_misses_absent_id :
    FromId
      [{ id := 1, token := [], payload := [], expiration := 0, priority := 0, created := 0 },
       { id := 3, token := [], payload := [], expiration := 0, priority := 0, created := 0 }]
      2 false = [] ∧
    FromId
      [{ id := 1, token := [], payload := [], expiration := 0, priority := 0, created := 0 },
       { id := 3, token := [], payload := [], expiration := 0, priority := 0, created := 0 }]
      2 false ≠
      [{ id := 1, token := [], payload := [], expiration := 0, priority := 0, created := 0 },
       { id := 3, token := [], payload := [], expiration := 0, priority := 0, created := 0 }].filter
        (fun m => decide (2 ≤ m.id)) ∧
    handleErrorResend
      [{ id := 1, token := [], payload := [], expiration := 0, priority := 0, created := 0 },
       { id := 3, token := [], payload := [], expiration := 0, priority := 0, created := 0 }]
      2 false =
      [{ id := 1, token := [], payload := [], expiration := 0, priority := 0, created := 0 },
       { id := 3, token := [], payload := [], expiration := 0, priority := 0, created := 0 }] := by
  refine ⟨by decide, by decide, by decide⟩

/-- When the cache holds an entry with the sought id, `FromId` returns the
entries at or after it, which — for a cache with strictly increasing ids —
are exactly those whose id is ≥ the sought id (> when excluding). -/
theorem fromId_eq_filter (cache : List sendMessage) (k : Nat) (exclude : Bool)
    (hs : List.Pairwise (fun a b => a.id < b.id) cache)
    (hm : ∃ m ∈ cache, m.id = k) :
    FromId cache k exclude =
      cache.filter (fun m => if exclude then decide (k < m.id) else decide (k ≤ m.id)) := by
  induction cache with
  | nil => simp at hm
  | cons head rest ih =>
    have hhead := (List.pairwise_cons.mp hs).1
    have hrest := (List.pairwise_cons.mp hs).2
    by_cases hk : head.id = k
    · have hgt : ∀ m ∈ rest, k < m.id := fun m hm' => hk ▸ hhead m hm'
      cases exclude
      · have hfilter : rest.filter (fun m => decide (k ≤ m.id)) = rest :=
          List.filter_eq_self.mpr fun a ha => by simp [Nat.le_of_lt (hgt a ha)]
        simp [FromId, hk, List.filter_cons, hfilter, Nat.le_of_eq hk.symm]
      · have hfilter : rest.filter (fun m => decide (k < m.id)) = rest :=
          List.filter_eq_self.mpr fun a ha => by simp [hgt a ha]
        simp [FromId, hk, List.filter_cons, hfilter]
    · obtain ⟨m, hmem, hmk⟩ := hm
      have hmr : m ∈ rest := by
        rcases List.mem_cons.mp hmem with h | h
        · exact absurd (h ▸ hmk) hk
        · exact h
      have hlt : head.id < k := hmk ▸ hhead m hmr
      have hdrop : (if exclude then decide (k < head.id) else decide (k ≤ head.id)) = false := by
        cases exclude <;> simp <;> omega
      simp [FromId, hk, List.filter_cons, hdrop, ih hrest ⟨m, hmr, hmk⟩]

/-- Shifting the accumulator of the `handleError` index scan by one shifts
the result by one, as long as a matching entry exists. -/
theorem handleErrorIndexLoop_shift (l : List sendMessage) (k : Nat)
    (hm : ∃ m ∈ l, m.id = k) : ∀ i : Nat,
    handleErrorIndexLoop l k (i + 1) = handleErrorIndexLoop l k i + 1 := by
  induction l with
  | nil => simp at hm
  | cons head rest ih =>
    intro i
    by_cases hk : head.id = k
    · simp [handleErrorIndexLoop, hk]
    · obtain ⟨m, hmem, hmk⟩ := hm
      have hmr : m ∈ rest := by
        rcases List.mem_cons.mp hmem with h | h
        · exact absurd (h ▸ hmk) hk
        · exact h
      simp [handleErrorIndexLoop, hk, ih ⟨m, hmr, hmk⟩]

/-- When the cache holds an entry with the sought id, the `handleError`
resend suffix coincides with `messageCache.FromId`. -/
theorem handleErrorResend_eq_fromId (cache : List sendMessage) (k : Nat) (exclude : Bool)
    (hm : ∃ m ∈ cache, m.id = k) :
    handleErrorResend cache k exclude = FromId cache k exclude := by
  induction cache with
  | nil => simp at hm
  | cons head rest ih =>
    by_cases hk : head.id = k
    · unfold handleErrorResend handleErrorIndexLoop
      rw [if_pos hk]
      cases exclude <;> simp [FromId, hk]
    · obtain ⟨m, hmem, hmk⟩ := hm
      have hmr : m ∈ rest := by
        rcases List.mem_cons.mp hmem with h | h
        · exact absurd (h ▸ hmk) hk
        · exact h
      have ih' := ih ⟨m, hmr, hmk⟩
      unfold handleErrorResend at ih' ⊢
      unfold handleErrorIndexLoop
      rw [if_neg hk, handleErrorIndexLoop_shift rest k ⟨m, hmr, hmk⟩ 0]
      have harith : handleErrorIndexLoop rest k 0 + 1 + (if exclude then 1 else 0) =
          handleErrorIndexLoop rest k 0 + (if exclude then 1 else 0) + 1 := by omega
      rw [harith, List.drop_succ_cons, ih']
      simp [FromId, hk]

/-- C2 (amended): for a replay cache with strictly increasing unique ids
and an id k that is present in the cache, the resend operation triggered by
an APNs error selects exactly the entries whose id is ≥ k (> k when
excluding), in original order with their ids preserved — both through
`messageCache.FromId` and through the `handleError` suffix — and the cache
is truncated to empty afterwards. -/
theorem resendFromId_selects_suffix (cache : List sendMessage) (k : Nat) (exclude : Bool)
    (hs : List.Pairwise (fun a b => a.id < b.id) cache)
    (hm : ∃ m ∈ cache, m.id = k) :
    FromId cache k exclude =
      cache.filter (fun m => if exclude then decide (k < m.id) else decide (k ≤ m.id)) ∧
    handleErrorResend cache k exclude =
      cache.filter (fun m => if exclude then decide (k < m.id) else decide (k ≤ m.id)) ∧
    handleErrorCacheAfter = [] :=
  ⟨fromId_eq_filter cache k exclude hs hm,
   (handleErrorResend_eq_fromId cache k exclude hm).trans (fromId_eq_filter cache k exclude hs hm),
   rfl⟩

/-- C2 witness: the amended statement instantiated on a cache with ids
[1, 2, 3], the present id 2 and the excluding flag — both selections yield
exactly the entry with id 3. -/
theorem resendFromId_selects_suffix_witness :
    FromId
      [{ id := 1, token := [], payload := [], expiration := 0, priority := 0, created := 0 },
       { id := 2, token := [], payload := [], expiration := 0, priority := 0, created := 0 },
       { id := 3, token := [], payload := [], expiration := 0, priority := 0, created := 0 }]
      2 true =
      [{ id := 3, token := [], payload := [], expiration := 0, priority := 0, created := 0 }] ∧
    handleErrorResend
      [{ id := 1, token := [], payload := [], expiration := 0, priority := 0, created := 0 },
       { id := 2, token := [], payload := [], expiration := 0, priority := 0, created := 0 },
       { id := 3, token := [], payload := [], expiration := 0, priority := 0, created := 0 }]
      2 true =
      [{ id := 3, token := [], payload := [], expiration := 0, priority := 0, created := 0 }] :=
  ⟨((resendFromId_selects_suffix
      [{ id := 1, token := [], payload := [], expiration := 0, priority := 0, created := 0 },
       { id := 2, token := [], payload := [], expiration := 0, priority := 0, created := 0 },
       { id := 3, token := [], payload := [], expiration := 0, priority := 0, created := 0 }]
      2 true (by decide) (by decide)).1).trans (by decide),
   ((resendFromId_selects_suffix
      [{ id := 1, token := [], payload := [], expiration := 0, priority := 0, created := 0 },
       { id := 2, token := [], payload := [], expiration := 0, priority := 0, created := 0 },
       { id := 3, token := [], payload := [], expiration := 0, priority := 0, created := 0 }]
      2 true (by decide) (by decide)).2.1).trans (by decide)⟩

/-- C4: `JWT()` returns the cached token string unchanged whenever a cached
token exists (non-empty) and its age `now − created` is at most
`JWTLifeTime`, and mints and caches a fresh token (stamped with the current
instant) whenever there is no cached token or the age exceeds the
lifetime. -/
theorem jwt_cache_policy (st : ProviderTokenCache) (lifeTime now : Int) (freshTok : String) :
    (st.jwt ≠ "" → now - st.created ≤ lifeTime →
      JWT st lifeTime now freshTok = (st.jwt, st)) ∧
    ((st.jwt = "" ∨ lifeTime < now - st.created) →
      JWT st lifeTime now freshTok = (freshTok, { jwt := freshTok, created := now })) := by
  constructor
  · intro hne hage
    have hcond : ¬(st.jwt = "" ∨ now - st.created > lifeTime) := by
      push_neg
      exact ⟨hne, hage⟩
    unfold JWT
    rw [if_neg hcond]
  · intro h
    unfold JWT
    rw [if_pos h]

/-- C4 witness: a young cached token is returned unchanged; a stale or
missing one is replaced by the fresh token stamped `now`. -/
theorem jwt_cache_policy_witness :
    JWT ⟨"cached", 0⟩ 55 10 "fresh" = ("cached", ⟨"cached", 0⟩) ∧
    JWT ⟨"cached", 0⟩ 55 100 "fresh" = ("fresh", ⟨"fresh", 100⟩) ∧
    JWT ⟨"", 0⟩ 55 10 "fresh" = ("fresh", ⟨"fresh", 10⟩) :=
  ⟨(jwt_cache_policy ⟨"cached", 0⟩ 55 10 "fresh").1 (by decide) (by decide),
   (jwt_cache_policy ⟨"cached", 0⟩ 55 100 "fresh").2 (Or.inr (by decide)),
   (jwt_cache_policy ⟨"", 0⟩ 55 10 "fresh").2 (Or.inl rfl)⟩

/-- C5: on the binary path the conversion fails with `payloadEmpty` iff the
payload dictionary is nil or empty, fails with `payloadTooLarge` iff the
JSON encoding exceeds 2048 bytes, and on success the returned message
carries the JSON encoding unchanged (the function is pure, so the failures
precede any network write). -/
theorem toSendMessage_payload_checks (enc : List (String × String) → List Nat)
    (msg : Message) (now : Int) :
    (toSendMessage enc msg now = .error .payloadEmpty ↔
      msg.Payload = none ∨ msg.Payload = some []) ∧
    (toSendMessage enc msg now = .error .payloadTooLarge ↔
      ∃ p, msg.Payload = some p ∧ p ≠ [] ∧ 2048 < (enc p).length) ∧
    (∀ sm, toSendMessage enc msg now = .ok sm →
      ∃ p, msg.Payload = some p ∧ p ≠ [] ∧ (enc p).length ≤ 2048 ∧ sm.payload = enc p) := by
  rcases hmp : msg.Payload with _ | p
  · simp [toSendMessage, hmp]
  · by_cases hp : p = []
    · subst hp
      simp [toSendMessage, hmp]
    · have hlen : ¬p.length = 0 := by simpa [List.length_eq_zero] using hp
      by_cases hbig : (enc p).length > maxPayloadSize
      · have hres : toSendMessage enc msg now = .error .payloadTooLarge := by
          simp [toSendMessage, hmp, hlen, hbig]
        refine ⟨?_, ?_, ?_⟩
        · rw [hres]
          simp [hp]
        · rw [hres]
          exact iff_of_true rfl ⟨p, rfl, hp, by simpa [maxPayloadSize] using hbig⟩
        · intro sm hsm
          rw [hres] at hsm
          exact absurd hsm (by simp)
      · have hle : (enc p).length ≤ 2048 := Nat.not_lt.mp (by simpa [maxPayloadSize] using hbig)
        refine ⟨?_, ?_, ?_⟩
        · simp [toSendMessage, hmp, hlen, hbig, hp]
        · constructor
          · intro hcontra
            simp [toSendMessage, hmp, hlen, hbig] at hcontra
          · rintro ⟨p', hp', _, hbig'⟩
            obtain rfl : p = p' := by injection hp'
            exact absurd hbig' (by omega)
        · intro sm hsm
          simp only [toSendMessage, hmp] at hsm
          rw [if_neg hlen, if_neg hbig] at hsm
          refine ⟨p, rfl, hp, hle, ?_⟩
          have hinj := Except.ok.inj hsm
          rw [← hinj]

set_option maxRecDepth 40000 in
/-- C5 witness: a payload encoding to exactly 2048 bytes is accepted with
the encoding carried unchanged, one of 2049 bytes is rejected with
`payloadTooLarge`, and a nil payload dictionary is rejected with
`payloadEmpty`. -/
theorem toSendMessage_payload_checks_witness :
    toSendMessage (fun _ => List.replicate 2048 7) ⟨some [("k", "v")], 0, 0⟩ 0 =
      .ok { id := 0, token := [], payload := List.replicate 2048 7, expiration := 0,
            priority := 0, created := 0 } ∧
    toSendMessage (fun _ => List.replicate 2049 7) ⟨some [("k", "v")], 0, 0⟩ 0 =
      .error .payloadTooLarge ∧
    toSendMessage (fun _ => []) ⟨none, 0, 0⟩ 0 = .error .payloadEmpty :=
  ⟨by simp [toSendMessage, maxPayloadSize],
   ((toSendMessage_payload_checks (fun _ => List.replicate 2049 7)
      ⟨some [("k", "v")], 0, 0⟩ 0).2.1).mpr ⟨[("k", "v")], rfl, by decide, by simp⟩,
   ((toSendMessage_payload_checks (fun _ => []) ⟨none, 0, 0⟩ 0).1).mpr (Or.inl rfl)⟩

/-- The enqueue loop of `Conn.Send` keeps exactly the 32-byte tokens, in
order. -/
theorem enqueueTokens_eq (sendmsg : sendMessage) (now : Int) (tokens : List (List Nat)) :
    enqueueTokens sendmsg now tokens =
      (tokens.filter (fun t => decide (t.length = 32))).map
        (fun t => sendMessage.WithToken sendmsg t now) := by
  induction tokens with
  | nil => rfl
  | cons t rest ih =>
    by_cases h : t.length = 32
    · simp [enqueueTokens, h, ih]
    · simp [enqueueTokens, h, ih]

/-- C7: for a message that converts successfully, `Conn.Send` enqueues
exactly one per-token copy for each token of length 32 (in order, each
carrying that token and the converted payload), silently skips every token
of any other length, and returns no error on account of a skipped token. -/
theorem send_token_fanout (enc : List (String × String) → List Nat) (msg : Message)
    (now : Int) (tokens : List (List Nat)) (sm : sendMessage)
    (h : toSendMessage enc msg now = Except.ok sm) :
    Send enc msg now tokens =
      Except.ok ((tokens.filter (fun t => decide (t.length = 32))).map
        (fun t => sendMessage.WithToken sm t now)) ∧
    ∀ m ∈ (tokens.filter (fun t => decide (t.length = 32))).map
        (fun t => sendMessage.WithToken sm t now),
      m.token.length = 32 ∧ m.payload = sm.payload := by
  constructor
  · simp only [Send, h]
    rw [enqueueTokens_eq]
  · intro m hm
    simp only [List.mem_map] at hm
    obtain ⟨t, ht, rfl⟩ := hm
    have := List.of_mem_filter ht
    exact ⟨by simpa using this, rfl⟩

/-- C7 witness: out of four tokens only the two of length 32 are enqueued,
in order, and no error results. -/
theorem send_token_fanout_witness :
    Send (fun _ => [123]) ⟨some [("k", "v")], 0, 0⟩ 7
      [List.replicate 32 1, [1, 2], List.replicate 32 2, []] =
      Except.ok
        [{ id := 0, token := List.replicate 32 1, payload := [123], expiration := 0,
           priority := 0, created := 7 },
         { id := 0, token := List.replicate 32 2, payload := [123], expiration := 0,
           priority := 0, created := 7 }] :=
  (send_token_fanout (fun _ => [123]) ⟨some [("k", "v")], 0, 0⟩ 7
      [List.replicate 32 1, [1, 2], List.replicate 32 2, []]
      { id := 0, token := [], payload := [123], expiration := 0, priority := 0, created := 0 }
      rfl).1.trans (by decide)

/-- C8: the request builder emits `apns-expiration: 0` when the expiration
is a non-zero instant already in the past, the decimal unix seconds when it
is non-zero and not yet past, and no such header when the expiration is the
zero instant. -/
theorem apns_expiration_header (n : Notification) (now : Int) :
    (n.ExpirationIsZero = true → apnsExpiration n now = none) ∧
    (n.ExpirationIsZero = false → n.ExpirationUnix < now → apnsExpiration n now = some "0") ∧
    (n.ExpirationIsZero = false → ¬n.ExpirationUnix < now →
      apnsExpiration n now = some (toString n.ExpirationUnix)) := by
  refine ⟨fun hz => ?_, fun hz hlt => ?_, fun hz hge => ?_⟩
  · by_cases hid : n.ID = "" <;> by_cases hlow : n.LowPriority = true <;>
      by_cases htop : n.Topic = "" <;>
      by_cases hcid : n.CollapseID ≠ "" ∧ n.CollapseID.length ≤ 64 <;>
      simp [apnsExpiration, requestHeaders, List.lookup, hz, hid, hlow, htop, hcid]
  · by_cases hid : n.ID = "" <;>
      simp [apnsExpiration, requestHeaders, List.lookup, hz, hid, hlt]
  · by_cases hid : n.ID = "" <;>
      simp [apnsExpiration, requestHeaders, List.lookup, hz, hid, hge]

/-- C8 witness: a zero expiration omits the header, a passed expiration
serialises as `"0"`, a future one as its decimal unix seconds. -/
theorem apns_expiration_header_witness :
    apnsExpiration ⟨"t", "", true, 0, false, "", ""⟩ 0 = none ∧
    apnsExpiration ⟨"t", "", false, 5, false, "", ""⟩ 10 = some "0" ∧
    apnsExpiration ⟨"t", "", false, 20, false, "", ""⟩ 10 = some "20" :=
  ⟨(apns_expiration_header ⟨"t", "", true, 0, false, "", ""⟩ 0).1 rfl,
   (apns_expiration_header ⟨"t", "", false, 5, false, "", ""⟩ 10).2.1 rfl (by decide),
   ((apns_expiration_header ⟨"t", "", false, 20, false, "", ""⟩ 10).2.2 rfl
      (by decide)).trans (by rfl)⟩

/-- C10: the claim says a marshal/unmarshal round trip (JSON or PEM)
preserves the team id and the key id.  `UnmarshalJSON` and
`ProviderTokenFromPEM` both pass the restored key id into the team-id
parameter of `NewProviderToken` and vice versa, so the round trip
transposes the two ids: starting from team id `TEAMID1234` and key id
`KEYID56789`, both round trips return team id `KEYID56789` and key id
`TEAMID1234`. -/
theorem providerToken_roundtrip_swaps_ids :
    UnmarshalJSON (MarshalJSON
        { teamID := "TEAMID1234", keyID := "KEYID56789", privateKey := [1, 2, 3] }) =
      Except.ok { teamID := "KEYID56789", keyID := "TEAMID1234", privateKey := [1, 2, 3] } ∧
    ProviderTokenFromPEM (WritePEM
        { teamID := "TEAMID1234", keyID := "KEYID56789", privateKey := [1, 2, 3] }) =
      Except.ok { teamID := "KEYID56789", keyID := "TEAMID1234", privateKey := [1, 2, 3] } ∧
    UnmarshalJSON (MarshalJSON
        { teamID := "TEAMID1234", keyID := "KEYID56789", privateKey := [1, 2, 3] }) ≠
      Except.ok { teamID := "TEAMID1234", keyID := "KEYID56789", privateKey := [1, 2, 3] } := by
  refine ⟨rfl, rfl, fun hcontra => ?_⟩
  have hok : UnmarshalJSON (MarshalJSON
      { teamID := "TEAMID1234", keyID := "KEYID56789", privateKey := [1, 2, 3] }) =
      Except.ok { teamID := "KEYID56789", keyID := "TEAMID1234", privateKey := [1, 2, 3] } := rfl
  have h := Except.ok.inj (hok.symm.trans hcontra)
  exact absurd (congrArg ProviderToken.teamID h) (by decide)

end Apns
